import Mathlib

/-!
# Verification of the LFS-Ayats telemetry core

Shallow embedding of the protocol and session core of the LFS-Ayats
telemetry companion, together with proofs about its specified behaviour.

The embedding covers:
* the session engine's split-fraction computation and reference-time
  algorithm (`src/main.py`);
* the InSim packet validator, framer buffer management and packet
  decoders (`src/src/insim_client.py`);
* the personal-best store (`src/src/persistence.py`);
* the OutSim ingester's allowed-source normalisation
  (`src/src/outsim_client.py`) and the rate limiter described by the
  specification.

Python integers are modelled as `Int`, Python floats as `Rat`, byte
strings as `List Nat`, dictionaries as association lists, and raised
exceptions as `Except` values.
-/

namespace LFSAyats

/-! ## Session engine (`src/main.py`) -/

/-- Python's `round` (banker's rounding, round half to even) on rationals,
as used by `int(round(...))` in `estimate_reference_time`. -/
def pyRound (q : ℚ) : ℤ :=
  let f := ⌊q⌋
  let r := q - f
  if r < 1/2 then f
  else if 1/2 < r then f + 1
  else if f % 2 = 0 then f else f + 1

/-- A stored personal best row (`PersonalBestRecord` in
`src/src/persistence.py`): timestamps are modelled as integers. -/
structure PBRecord where
  track : String
  car : String
  laptime_ms : ℤ
  recorded_at : ℤ
  deriving DecidableEq, Repr

/-- Loop body of `normalise_fractions` in `src/main.py` (lines 407-419),
carrying the running `last_value` accumulator. -/
def normFracAux (last : ℚ) : List ℚ → List ℚ
  | [] => []
  | v :: vs =>
    if v ≤ 0 then normFracAux last vs
    else
      let clamped := max last (min v 1)
      if 1 ≤ clamped then []
      else if last < clamped then clamped :: normFracAux clamped vs
      else normFracAux last vs

/-- Function `normalise_fractions` from `src/main.py`: clean an arbitrary fraction
list into a strictly increasing sequence inside (0, 1). -/
def normaliseFractions (values : List ℚ) : List ℚ :=
  normFracAux 0 values

/-- Loop computing `last_lap_split_fractions` inside `handle_lap`
(`src/main.py` lines 611-623), including the dead in-loop
`lap_time <= 0` break. -/
def lapFracAux (lapTime : ℤ) (last : ℚ) : List ℤ → List ℚ
  | [] => []
  | t :: ts =>
    if lapTime ≤ 0 then []
    else
      let fraction := max last (min ((t : ℚ) / (lapTime : ℚ)) 1)
      if 1 ≤ fraction then []
      else if last < fraction then fraction :: lapFracAux lapTime fraction ts
      else lapFracAux lapTime last ts

/-- The `last_lap_split_fractions` list derived by `handle_lap` from the
sorted cumulative split times and the lap time. -/
def lapSplitFractions (lapTime : ℤ) (splitTimes : List ℤ) : List ℚ :=
  if splitTimes = [] then [] else lapFracAux lapTime 0 splitTimes

/-- Insert an integer into a sorted list (helper for Python's
`sorted(...)` over dictionary keys). -/
def insertSorted (x : ℤ) : List ℤ → List ℤ
  | [] => [x]
  | y :: ys => if x ≤ y then x :: y :: ys else y :: insertSorted x ys

/-- Sort a list of integers ascending (Python's `sorted`). -/
def sortInts (xs : List ℤ) : List ℤ :=
  xs.foldr insertSorted []

/-- Association-list lookup for the `current_split_times` dictionary. -/
def assocLookup (m : List (ℤ × ℤ)) (k : ℤ) : Option ℤ :=
  (m.find? (fun p => p.1 = k)).map (·.2)

/-- Comprehension `[current_splits[idx] for idx in sorted(current_splits)]`: the split
times ordered by ascending split index. -/
def sortedSplitValues (m : List (ℤ × ℤ)) : List ℤ :=
  (sortInts (m.map (·.1))).map (fun k => (assocLookup m k).getD 0)

/-- The timing-related subset of the session model consumed by
`estimate_reference_time` (the `lap_state` dictionary and the
`persistent_best` binding of `main` in `src/main.py`). -/
structure SessionState where
  current_split_times : List (ℤ × ℤ)
  last_lap_split_fractions : List ℚ
  pb_split_fractions : List ℚ
  latest_estimated_total_ms : Option ℤ
  persistent_best : Option PBRecord
  deriving Repr

/-- Function `resolve_reference_fractions` from `src/main.py` (lines 421-437). -/
def resolveReferenceFractions (st : SessionState) : List ℚ :=
  if st.pb_split_fractions ≠ [] then
    normaliseFractions st.pb_split_fractions
  else if st.last_lap_split_fractions ≠ [] then
    normaliseFractions st.last_lap_split_fractions
  else
    match st.latest_estimated_total_ms with
    | some est =>
      if st.current_split_times ≠ [] ∧ 0 < est then
        let ordered := sortedSplitValues st.current_split_times
        let derived := (ordered.filter (· < est)).map (fun s => (s : ℚ) / (est : ℚ))
        normaliseFractions derived
      else []
    | none => []

/-- The nested `estimate_from_progress` helper of
`estimate_reference_time` (`src/main.py` lines 447-454). -/
def estimateFromProgress (latestEstimate : Option ℤ) (currentMs pbTotal : ℤ) : Option ℤ :=
  match latestEstimate with
  | none => none
  | some est =>
    if est = 0 then none
    else if est ≤ 0 then none
    else
      let progress : ℚ := min (max ((currentMs : ℚ) / (est : ℚ)) 0) 1
      let referenceTime := pyRound ((pbTotal : ℚ) * progress)
      some (min referenceTime pbTotal)

/-- Function `estimate_reference_time` from `src/main.py` (lines 439-485): warp the
personal best onto the current lap position. -/
def estimateReferenceTime (st : SessionState) (currentMs : Option ℤ) : Option ℤ :=
  match currentMs with
  | none => none
  | some cur =>
    match st.persistent_best with
    | none => none
    | some pbr =>
      if pbr.laptime_ms ≤ 0 then none
      else
        let pbTotal := pbr.laptime_ms
        let fractions := resolveReferenceFractions st
        if fractions = [] then
          estimateFromProgress st.latest_estimated_total_ms cur pbTotal
        else
          let boundaries := fractions ++ [1]
          let sortedSplits := sortedSplitValues st.current_split_times
          let passedSplits := sortedSplits.filter (· ≤ cur)
          if passedSplits = [] then
            estimateFromProgress st.latest_estimated_total_ms cur pbTotal
          else
            let segmentIndex := min passedSplits.length (boundaries.length - 1)
            let startFraction : ℚ :=
              if 0 < segmentIndex then boundaries.getD (segmentIndex - 1) 0 else 0
            let endFraction : ℚ := boundaries.getD segmentIndex 0
            let pbStart := pyRound ((pbTotal : ℚ) * startFraction)
            let pbEnd := pyRound ((pbTotal : ℚ) * endFraction)
            let pbSegmentDuration := max (pbEnd - pbStart) 1
            let segmentStartTime : ℤ :=
              if 0 < segmentIndex ∧ segmentIndex - 1 < passedSplits.length then
                passedSplits.getD (segmentIndex - 1) 0
              else 0
            let segmentElapsed := max (cur - segmentStartTime) 0
            let progressWithin : ℚ :=
              min ((segmentElapsed : ℚ) / (pbSegmentDuration : ℚ)) 1
            let referenceTime := pbStart + pyRound (progressWithin * (pbSegmentDuration : ℚ))
            some (min referenceTime pbTotal)

/-- Decidable strict-increase check for a fraction list. -/
def strictIncrB : List ℚ → Bool
  | [] => true
  | [_] => true
  | a :: b :: t => decide (a < b) && strictIncrB (b :: t)

/-- Decidable form of spec invariant 2 for one fraction list: strictly
increasing and every element strictly inside (0, 1). -/
def fracListOkB (l : List ℚ) : Bool :=
  strictIncrB l && l.all (fun x => decide (0 < x) && decide (x < 1))

/-- Decidable form of session invariants 1-2 from the specification:
split values strictly increase in split-index order and stay below any
known `latest_estimated_total_ms`; both published fraction lists are
strictly increasing inside (0, 1). -/
def sessionInvariantsB (st : SessionState) : Bool :=
  strictIncrB ((sortedSplitValues st.current_split_times).map (fun t => (t : ℚ))) &&
  (match st.latest_estimated_total_ms with
   | none => true
   | some e => (sortedSplitValues st.current_split_times).all (fun t => decide (t < e))) &&
  fracListOkB st.pb_split_fractions &&
  fracListOkB st.last_lap_split_fractions

/-! ### Fraction-list lemmas -/

theorem normFracAux_spec (vs : List ℚ) : ∀ last : ℚ,
    List.Chain' (· < ·) (normFracAux last vs) ∧
    ∀ x ∈ normFracAux last vs, last < x ∧ x < 1 := by
  induction vs with
  | nil => intro last; simp [normFracAux]
  | cons v vs ih =>
    intro last
    unfold normFracAux
    by_cases h0 : v ≤ 0
    · simpa [h0] using ih last
    · simp only [h0, if_false]
      by_cases h1 : 1 ≤ max last (min v 1)
      · simp [h1]
      · simp only [h1, if_false]
        by_cases h2 : last < max last (min v 1)
        · obtain ⟨ihc, ihm⟩ := ih (max last (min v 1))
          simp only [h2, if_true]
          constructor
          · exact List.chain'_cons'.mpr
              ⟨fun y hy => (ihm y (List.mem_of_mem_head? hy)).1, ihc⟩
          · intro x hx
            rcases List.mem_cons.mp hx with rfl | hx
            · exact ⟨h2, lt_of_not_le h1⟩
            · obtain ⟨hgt, hlt⟩ := ihm x hx
              exact ⟨lt_trans h2 hgt, hlt⟩
        · simpa [h2] using ih last

theorem lapFracAux_spec (lapTime : ℤ) (ts : List ℤ) : ∀ last : ℚ,
    List.Chain' (· < ·) (lapFracAux lapTime last ts) ∧
    ∀ x ∈ lapFracAux lapTime last ts, last < x ∧ x < 1 := by
  induction ts with
  | nil => intro last; simp [lapFracAux]
  | cons t ts ih =>
    intro last
    unfold lapFracAux
    by_cases h0 : lapTime ≤ 0
    · simp [h0]
    · simp only [h0, if_false]
      set f := max last (min ((t : ℚ) / (lapTime : ℚ)) 1) with hf
      by_cases h1 : 1 ≤ f
      · simp [h1]
      · simp only [h1, if_false]
        by_cases h2 : last < f
        · obtain ⟨ihc, ihm⟩ := ih f
          simp only [h2, if_true]
          constructor
          · exact List.chain'_cons'.mpr
              ⟨fun y hy => (ihm y (List.mem_of_mem_head? hy)).1, ihc⟩
          · intro x hx
            rcases List.mem_cons.mp hx with rfl | hx
            · exact ⟨h2, lt_of_not_le h1⟩
            · obtain ⟨hgt, hlt⟩ := ihm x hx
              exact ⟨lt_trans h2 hgt, hlt⟩
        · simpa [h2] using ih last

theorem normaliseFractions_mem {vs : List ℚ} {x : ℚ}
    (hx : x ∈ normaliseFractions vs) : 0 < x ∧ x < 1 :=
  (normFracAux_spec vs 0).2 x hx

theorem normaliseFractions_chain (vs : List ℚ) :
    List.Chain' (· < ·) (normaliseFractions vs) :=
  (normFracAux_spec vs 0).1

/-- Claim C8: for every LAP event with `lap_time > 0`, the
`last_lap_split_fractions` list computed by the session engine from the
sorted cumulative split times is strictly increasing with every element
strictly between 0 and 1, and every list produced by
`normalise_fractions` (used when resolving reference fractions) has the
same shape, for arbitrary input lists. -/
theorem c8_split_fraction_invariant (lapTime : ℤ) (splitTimes : List ℤ)
    (hpos : 0 < lapTime) :
    (List.Chain' (· < ·) (lapSplitFractions lapTime splitTimes) ∧
      ∀ x ∈ lapSplitFractions lapTime splitTimes, 0 < x ∧ x < 1) ∧
    ∀ vs : List ℚ,
      List.Chain' (· < ·) (normaliseFractions vs) ∧
      ∀ x ∈ normaliseFractions vs, 0 < x ∧ x < 1 := by
  refine ⟨?_, fun vs => ⟨normaliseFractions_chain vs, fun x hx => normaliseFractions_mem hx⟩⟩
  unfold lapSplitFractions
  by_cases hempty : splitTimes = []
  · simp [hempty]
  · simp only [hempty, if_false]
    exact ⟨(lapFracAux_spec lapTime splitTimes 0).1,
      fun x hx => (lapFracAux_spec lapTime splitTimes 0).2 x hx⟩

/-- Witness for `c8_split_fraction_invariant` at a concrete lap. -/
theorem c8_split_fraction_invariant_witness :
    (0 : ℤ) < 73000 ∧
    (List.Chain' (· < ·) (lapSplitFractions 73000 [24000, 49000]) ∧
      ∀ x ∈ lapSplitFractions 73000 [24000, 49000], 0 < x ∧ x < 1) ∧
    ∀ vs : List ℚ,
      List.Chain' (· < ·) (normaliseFractions vs) ∧
      ∀ x ∈ normaliseFractions vs, 0 < x ∧ x < 1 :=
  ⟨by decide, c8_split_fraction_invariant 73000 [24000, 49000] (by decide)⟩

/-! ### Reference-time range lemmas -/

theorem pyRound_nonneg {q : ℚ} (h : 0 ≤ q) : 0 ≤ pyRound q := by
  have hf : (0 : ℤ) ≤ ⌊q⌋ := Int.le_floor.mpr (by exact_mod_cast h)
  simp only [pyRound]
  split_ifs <;> omega

theorem getD_nonneg {l : List ℚ} (hl : ∀ x ∈ l, 0 ≤ x) (n : ℕ) :
    0 ≤ l.getD n 0 := by
  rcases h : l[n]? with _ | x
  · simp [List.getD_eq_getElem?_getD, h]
  · have hmem : x ∈ l := List.getElem?_mem h
    simp only [List.getD_eq_getElem?_getD, h, Option.getD_some]
    exact hl x hmem

theorem resolveReferenceFractions_nonneg (st : SessionState) :
    ∀ x ∈ resolveReferenceFractions st, 0 ≤ x := by
  intro x hx
  unfold resolveReferenceFractions at hx
  split at hx
  · exact (normaliseFractions_mem hx).1.le
  · split at hx
    · exact (normaliseFractions_mem hx).1.le
    · split at hx
      · split at hx
        · exact (normaliseFractions_mem hx).1.le
        · simp at hx
      · simp at hx

theorem estimateFromProgress_range {latestEstimate : Option ℤ}
    {cur pbTotal r : ℤ} (hpb : 0 < pbTotal)
    (h : estimateFromProgress latestEstimate cur pbTotal = some r) :
    0 ≤ r ∧ r ≤ pbTotal := by
  unfold estimateFromProgress at h
  rcases latestEstimate with _ | est
  · simp at h
  · by_cases h0 : est = 0
    · simp [h0] at h
    · by_cases hneg : est ≤ 0
      · simp [h0, hneg] at h
      · simp only [h0, hneg, if_false, Option.some.injEq] at h
        subst h
        have hprog : (0 : ℚ) ≤ min (max ((cur : ℚ) / (est : ℚ)) 0) 1 :=
          le_min (le_max_right _ _) zero_le_one
        have href : 0 ≤ pyRound ((pbTotal : ℚ) * min (max ((cur : ℚ) / (est : ℚ)) 0) 1) :=
          pyRound_nonneg (mul_nonneg (by exact_mod_cast hpb.le) hprog)
        exact ⟨le_min href hpb.le, min_le_right _ _⟩

theorem referenceTime_some_range (st : SessionState) (cur r : ℤ)
    (pbr : PBRecord) (hpb : st.persistent_best = some pbr)
    (hpos : 0 < pbr.laptime_ms)
    (h : estimateReferenceTime st (some cur) = some r) :
    0 ≤ r ∧ r ≤ pbr.laptime_ms := by
  have hbnd : ∀ x ∈ resolveReferenceFractions st ++ [(1 : ℚ)], 0 ≤ x := by
    intro x hx
    rcases List.mem_append.mp hx with hx | hx
    · exact resolveReferenceFractions_nonneg st x hx
    · simp only [List.mem_singleton] at hx
      exact hx ▸ zero_le_one
  unfold estimateReferenceTime at h
  rw [hpb] at h
  dsimp only at h
  rw [if_neg (not_le.mpr hpos)] at h
  by_cases hfr : resolveReferenceFractions st = []
  · simp only [hfr, if_true, if_pos rfl] at h
    exact estimateFromProgress_range hpos h
  · simp only [hfr, if_false, if_neg hfr] at h
    by_cases hps : (sortedSplitValues st.current_split_times).filter (· ≤ cur) = []
    · rw [if_pos hps] at h
      exact estimateFromProgress_range hpos h
    · rw [if_neg hps, Option.some.injEq] at h
      subst h
      refine ⟨le_min (add_nonneg (pyRound_nonneg ?_) (pyRound_nonneg ?_)) hpos.le,
        min_le_right _ _⟩
      · refine mul_nonneg (by exact_mod_cast hpos.le) ?_
        split
        · exact getD_nonneg hbnd _
        · exact le_refl 0
      · refine mul_nonneg (le_min (div_nonneg ?_ ?_) zero_le_one) ?_
        · exact_mod_cast le_max_right _ (0 : ℤ)
        · exact_mod_cast le_trans (by decide : (0 : ℤ) ≤ 1) (le_max_right _ 1)
        · exact_mod_cast le_trans (by decide : (0 : ℤ) ≤ 1) (le_max_right _ 1)

/-- Claim C1 (amended): for every state satisfying the session invariants and
every non-negative `current_ms`: if the persistent best is absent or its
`laptime_ms ≤ 0` the reference-time algorithm returns absent, and if a
persistent best with `laptime_ms > 0` exists then *whenever the algorithm
returns a value* that value lies in `[0, PB.laptime_ms]` (it may also
return absent when no fractions, usable splits or positive total estimate
exist). -/
theorem c1_reference_time_range (st : SessionState) (cur : ℤ)
    (hcur : 0 ≤ cur) (hinv : sessionInvariantsB st = true) :
    (st.persistent_best = none → estimateReferenceTime st (some cur) = none) ∧
    (∀ pbr, st.persistent_best = some pbr → pbr.laptime_ms ≤ 0 →
      estimateReferenceTime st (some cur) = none) ∧
    (∀ pbr r, st.persistent_best = some pbr → 0 < pbr.laptime_ms →
      estimateReferenceTime st (some cur) = some r →
      0 ≤ r ∧ r ≤ pbr.laptime_ms) := by
  refine ⟨?_, ?_, ?_⟩
  · intro hnone
    simp [estimateReferenceTime, hnone]
  · intro pbr hsome hle
    simp [estimateReferenceTime, hsome, hle]
  · intro pbr r hsome hpos h
    exact referenceTime_some_range st cur r pbr hsome hpos h

/-- Session state of the `C1` counterexample: a loaded personal best but
no fractions, no splits and no estimated total. -/
def c1State : SessionState :=
  { current_split_times := []
    last_lap_split_fractions := []
    pb_split_fractions := []
    latest_estimated_total_ms := none
    persistent_best := some ⟨"BL1", "XFG", 90000, 0⟩ }

/-- Claim C1 counterexample: the state satisfies the session invariants and
holds a persistent best with `laptime_ms = 90000 > 0`, yet
`estimate_reference_time` returns absent rather than a value in
`[0, 90000]`. -/
theorem c1_reference_time_counterexample :
    sessionInvariantsB c1State = true ∧
    c1State.persistent_best = some ⟨"BL1", "XFG", 90000, 0⟩ ∧
    (0 : ℤ) < 90000 ∧
    estimateReferenceTime c1State (some 0) = none :=
  ⟨rfl, rfl, by decide, rfl⟩

/-- Session state used by the `C1` witness: personal best of 90000 ms and
an estimated total of 85000 ms. -/
def c1WitnessState : SessionState :=
  { current_split_times := []
    last_lap_split_fractions := []
    pb_split_fractions := []
    latest_estimated_total_ms := some 85000
    persistent_best := some ⟨"BL1", "XFG", 90000, 0⟩ }

/-- Witness for `c1_reference_time_range` at a concrete state. -/
theorem c1_reference_time_range_witness :
    (0 : ℤ) ≤ 6000 ∧ sessionInvariantsB c1WitnessState = true ∧
    ((c1WitnessState.persistent_best = none →
        estimateReferenceTime c1WitnessState (some 6000) = none) ∧
      (∀ pbr, c1WitnessState.persistent_best = some pbr → pbr.laptime_ms ≤ 0 →
        estimateReferenceTime c1WitnessState (some 6000) = none) ∧
      (∀ pbr r, c1WitnessState.persistent_best = some pbr → 0 < pbr.laptime_ms →
        estimateReferenceTime c1WitnessState (some 6000) = some r →
        0 ≤ r ∧ r ≤ pbr.laptime_ms)) :=
  ⟨by decide, rfl, c1_reference_time_range c1WitnessState 6000 (by decide) rfl⟩

/-! ## InSim client (`src/src/insim_client.py`)

Packets are byte lists (`List ℕ`, each element a byte value). Out-of-range
reads use Python-faithful guards; where the source indexes unconditionally
after a length check, `List.getD` with default 0 is used. -/

/-- Packet-type constants (`ISP_*`). -/
def ISP_ISI : ℕ := 1
def ISP_VER : ℕ := 2
def ISP_STA : ℕ := 5
def ISP_MST : ℕ := 11
def ISP_NPL : ℕ := 21
def ISP_LAP : ℕ := 28
def ISP_SPX : ℕ := 29
def ISP_MCI : ℕ := 38
def ISP_BTN : ℕ := 45
def ISP_BFN : ℕ := 46
def ISP_BTC : ℕ := 47

/-- The `_KNOWN_PACKET_TYPES` set. -/
def knownPacketTypes : List ℕ :=
  [ISP_ISI, ISP_VER, ISP_STA, ISP_MST, ISP_NPL, ISP_LAP, ISP_SPX,
   ISP_MCI, ISP_BTN, ISP_BFN, ISP_BTC]

/-- Little-endian 16-bit read (`struct.unpack_from("<H", ...)`). -/
def le16 (p : List ℕ) (o : ℕ) : ℕ :=
  p.getD o 0 + 256 * p.getD (o + 1) 0

/-- Little-endian 32-bit read (`struct.unpack_from("<I", ...)`). -/
def le32 (p : List ℕ) (o : ℕ) : ℕ :=
  p.getD o 0 + 256 * p.getD (o + 1) 0 + 65536 * p.getD (o + 2) 0 +
    16777216 * p.getD (o + 3) 0

/-- Signed little-endian 32-bit read (`struct.unpack_from("<i", ...)`). -/
def le32s (p : List ℕ) (o : ℕ) : ℤ :=
  let u := le32 p o
  if u < 2 ^ 31 then (u : ℤ) else (u : ℤ) - 2 ^ 32

/-- Signed little-endian 16-bit read (`struct.unpack_from("<h", ...)`). -/
def le16s (p : List ℕ) (o : ℕ) : ℤ :=
  let u := le16 p o
  if u < 2 ^ 15 then (u : ℤ) else (u : ℤ) - 2 ^ 16

/-- Whether a code point below 256 is whitespace for Python's
`str.strip()`: TAB..CR (9-13), FS/GS/RS/US (28-31), SPACE (32),
NEL (0x85) and NBSP (0xA0) — exactly the characters with
`str.isspace() == True` in that range. -/
def isWSByte (b : ℕ) : Bool :=
  b = 32 || b = 9 || b = 10 || b = 13 || b = 11 || b = 12 ||
  b = 28 || b = 29 || b = 30 || b = 31 || b = 133 || b = 160

/-- Python `str.strip()` on a decoded byte string. -/
def stripBytes (bs : List ℕ) : List ℕ :=
  ((bs.dropWhile isWSByte).reverse.dropWhile isWSByte).reverse

/-- Decoding `bytes.split(b"\x00", 1)[0].decode("ascii", errors="ignore").strip()`:
truncate at the first NUL, drop non-ASCII bytes, strip whitespace. -/
def decodeAsciiName (bs : List ℕ) : List ℕ :=
  stripBytes ((bs.takeWhile (· ≠ 0)).filter (· < 128))

/-- Decoding `bytes.split(b"\x00", 1)[0].decode("latin-1", errors="ignore").strip()`:
truncate at the first NUL and strip whitespace (latin-1 never fails). -/
def decodeLatin1Name (bs : List ℕ) : List ℕ :=
  stripBytes (bs.takeWhile (· ≠ 0))

/-- A named field of a packet schema (`_PacketField`). -/
structure PacketField where
  offset : ℕ
  length : ℕ
  deriving DecidableEq, Repr

/-- A per-type packet schema (`_PacketSchema`). -/
structure PacketSchema where
  min_size : ℕ
  fields : List PacketField
  exact_size : Option ℕ := none
  max_size : Option ℕ := none
  deriving DecidableEq, Repr

/-- Table `PacketValidator._size_bounds`. -/
def sizeBounds (packetType : ℕ) : Option (ℕ × ℕ) :=
  if packetType = ISP_VER then some (20, 20)
  else if packetType = ISP_STA then some (28, 28)
  else if packetType = ISP_NPL then some (44, 120)
  else if packetType = ISP_LAP then some (42, 96)
  else if packetType = ISP_SPX then some (42, 96)
  else if packetType = ISP_BTC then some (8, 12)
  else none

/-- Table `PacketValidator._schemas`. -/
def packetSchema (packetType : ℕ) : Option PacketSchema :=
  if packetType = ISP_VER then
    some { min_size := 20, exact_size := some 20, max_size := some 20
           fields := [⟨0, 4⟩, ⟨4, 16⟩] }
  else if packetType = ISP_STA then
    some { min_size := 28, exact_size := some 28, max_size := some 28
           fields := [⟨0, 4⟩, ⟨16, 2⟩] }
  else if packetType = ISP_NPL then
    some { min_size := 44, max_size := some 120
           fields := [⟨0, 4⟩, ⟨3, 1⟩, ⟨40, 4⟩] }
  else if packetType = ISP_LAP then
    some { min_size := 42, max_size := some 96
           fields := [⟨0, 4⟩, ⟨4, 8⟩, ⟨12, 2⟩, ⟨14, 1⟩, ⟨15, 1⟩,
                      ⟨16, 1⟩, ⟨17, 1⟩, ⟨18, 24⟩] }
  else if packetType = ISP_SPX then
    some { min_size := 42, max_size := some 96
           fields := [⟨0, 4⟩, ⟨4, 8⟩, ⟨12, 2⟩, ⟨14, 1⟩, ⟨15, 1⟩,
                      ⟨16, 1⟩, ⟨17, 1⟩, ⟨18, 24⟩] }
  else if packetType = ISP_BTC then
    some { min_size := 8, max_size := some 12
           fields := [⟨0, 4⟩, ⟨6, 2⟩] }
  else if packetType = ISP_MCI then
    some { min_size := 4, fields := [⟨0, 4⟩] }
  else none

/-- Method `PacketValidator.validate_header` (reasons dropped, truth value kept). -/
def validateHeader (size packetType : ℕ) : Bool :=
  if size < 4 then false
  else
    match sizeBounds packetType with
    | none => true
    | some (minSize, maxSize) =>
      if size < minSize then false
      else if maxSize < size then false
      else true

/-- Method `PacketValidator.validate` (reasons dropped, truth value kept). -/
def validate (packet : List ℕ) : Bool :=
  if packet.length < 2 then false
  else
    let size := packet.getD 0 0
    let packetType := packet.getD 1 0
    if ¬ validateHeader size packetType then false
    else if packet.length < size then false
    else
      match packetSchema packetType with
      | none => true
      | some schema =>
        if size < schema.min_size then false
        else if schema.exact_size.any (fun e => size ≠ e) then false
        else if schema.max_size.any (fun m => m < size) then false
        else schema.fields.all (fun f => f.offset + f.length ≤ size)

/-- Method `InSimClient._scan_for_valid_packet_start`: offset of the first
plausible packet header, scanning byte by byte. -/
def scanForValidPacketStart (bufferLimit : ℕ) (requireComplete : Bool) :
    List ℕ → Option ℕ
  | [] => none
  | size :: rest =>
    if size = 0 then (scanForValidPacketStart bufferLimit requireComplete rest).map (· + 1)
    else if rest.length + 1 < 2 then none
    else
      let packetType := rest.getD 0 0
      if packetType ∉ knownPacketTypes then
        (scanForValidPacketStart bufferLimit requireComplete rest).map (· + 1)
      else if size < 4 then
        (scanForValidPacketStart bufferLimit requireComplete rest).map (· + 1)
      else if requireComplete ∧ rest.length + 1 < size then
        (scanForValidPacketStart bufferLimit requireComplete rest).map (· + 1)
      else if ¬ requireComplete ∧ bufferLimit < size then
        (scanForValidPacketStart bufferLimit requireComplete rest).map (· + 1)
      else some 0

/-- Method `InSimClient._discard_until_valid_header`: drop bytes until a valid
packet header sits at offset 0, returning the remaining buffer and
whether a valid (and, when required, complete) header was found. -/
def discardUntilValidHeader (bufferLimit : ℕ) (requireComplete : Bool)
    (buf : List ℕ) : List ℕ × Bool :=
  if hempty : buf.isEmpty then (buf, false)
  else
    match scanForValidPacketStart bufferLimit requireComplete buf with
    | none => ([], false)
    | some offset =>
      if hoff : 0 < offset then
        discardUntilValidHeader bufferLimit requireComplete (buf.drop offset)
      else if buf.length < 2 then (buf, false)
      else
        let size := buf.getD 0 0
        let packetType := buf.getD 1 0
        if validateHeader size packetType then
          if requireComplete ∧ buf.length < size then (buf, false)
          else (buf, true)
        else
          discardUntilValidHeader bufferLimit requireComplete
            (buf.drop (if 2 ≤ buf.length then 2 else 1))
termination_by buf.length
decreasing_by
  · have : buf ≠ [] := by simpa [List.isEmpty_iff] using hempty
    have hlen : 0 < buf.length := List.length_pos.mpr this
    simp only [List.length_drop]
    omega
  · have : buf ≠ [] := by simpa [List.isEmpty_iff] using hempty
    have hlen : 0 < buf.length := List.length_pos.mpr this
    simp only [List.length_drop]
    split <;> omega

/-- The truncation step of `InSimClient._append_to_buffer`: the byte
content retained once the oldest overflow bytes have been dropped. -/
def appendTruncate (bufferLimit : ℕ) (buf data : List ℕ) : List ℕ :=
  let totalLen := buf.length + data.length
  let discard := totalLen - bufferLimit
  if buf.length ≤ discard then
    let discardFromData := discard - buf.length
    if data.length ≤ discardFromData then data.drop (data.length - bufferLimit)
    else data.drop discardFromData
  else
    buf.drop discard ++ data

/-- Method `InSimClient._append_to_buffer` (lines 586-614): cap the buffer at
`bufferLimit` bytes, dropping the oldest bytes, then resynchronise. -/
def appendToBuffer (bufferLimit : ℕ) (buf data : List ℕ) : List ℕ :=
  if bufferLimit = 0 then []
  else if data.isEmpty then buf
  else if buf.length + data.length ≤ bufferLimit then buf ++ data
  else
    let truncated := appendTruncate bufferLimit buf data
    if truncated.isEmpty then truncated
    else (discardUntilValidHeader bufferLimit true truncated).1

/-- Structure `LapEvent` as decoded from an `IS_LAP` packet (the `track`/`car`
context fields are attached by `_handle_packet`). -/
structure LapEvent where
  plid : ℕ
  lap_time_ms : ℕ
  estimate_time_ms : ℕ
  flags : ℕ
  penalty : ℕ
  num_pit_stops : ℕ
  fuel_percent : ℕ
  player_name : List ℕ
  spare : ℕ := 0
  raw_sp0 : ℕ := 0
  track : Option (List ℕ) := none
  car : Option (List ℕ) := none
  deriving DecidableEq, Repr

/-- Structure `SplitEvent` as decoded from an `IS_SPX` packet. -/
structure SplitEvent where
  plid : ℕ
  split_time_ms : ℕ
  estimate_time_ms : ℕ
  split_index : ℕ
  flags : ℕ
  penalty : ℕ
  num_pit_stops : ℕ
  fuel_percent : ℕ
  player_name : List ℕ
  spare : ℕ := 0
  track : Option (List ℕ) := none
  car : Option (List ℕ) := none
  deriving DecidableEq, Repr

/-- Structure `StateEvent` emitted for `IS_STA` and `IS_NPL` packets. -/
structure StateEvent where
  flags2 : ℕ
  track : Option (List ℕ) := none
  car : Option (List ℕ) := none
  view_plid : Option ℕ := none
  deriving DecidableEq, Repr

/-- Structure `CarInfo`: one 28-byte entry of an `IS_MCI` packet. -/
structure CarInfo where
  node : ℕ
  lap : ℕ
  plid : ℕ
  position : ℕ
  info : ℕ
  x : ℤ
  y : ℤ
  z : ℤ
  speed : ℕ
  direction : ℕ
  heading : ℕ
  angular_velocity : ℤ
  spare : ℕ := 0
  deriving DecidableEq, Repr

/-- Structure `ButtonClickEvent` decoded from `IS_BTC`. -/
structure ButtonClickEvent where
  req_id : ℕ
  ucid : ℕ
  click_id : ℕ
  inst : ℕ
  flags : ℕ
  deriving DecidableEq, Repr

/-- A typed event dispatched to the registered listeners. -/
inductive InSimEvent where
  | state (e : StateEvent)
  | lap (e : LapEvent)
  | split (e : SplitEvent)
  | button (e : ButtonClickEvent)
  | mci (cars : List CarInfo) (viewPlid : Option ℕ)
  deriving DecidableEq, Repr

/-- The decoder-relevant mutable state of `InSimClient`. -/
structure ClientState where
  plid_to_car : List (ℕ × List ℕ) := []
  current_track : Option (List ℕ) := none
  current_car : Option (List ℕ) := none
  view_plid : Option ℕ := none
  last_flags2 : ℕ := 0
  deriving DecidableEq, Repr

/-- Lookup in the `plid_to_car` dictionary. -/
def plidLookup (m : List (ℕ × List ℕ)) (plid : ℕ) : Option (List ℕ) :=
  (m.find? (fun p => p.1 = plid)).map (·.2)

/-- Insert/overwrite in the `plid_to_car` dictionary. -/
def plidInsert (m : List (ℕ × List ℕ)) (plid : ℕ) (car : List ℕ) :
    List (ℕ × List ℕ) :=
  match m with
  | [] => [(plid, car)]
  | e :: es => if e.1 = plid then (plid, car) :: es else e :: plidInsert es plid car

/-- Method `InSimClient._parse_lap_packet` (lines 855-917). -/
def parseLapPacket (packet : List ℕ) : Option LapEvent :=
  if packet.length < 4 + 8 + 2 then none
  else
    let size := packet.getD 0 0
    if packet.length < size then none
    else
      let plid := packet.getD 3 0
      let lapTime := le32 packet 4
      let estTime := le32 packet 8
      let flags := le16 packet 12
      let sp0 := packet.getD 14 0
      let penalty := packet.getD 15 0
      let numStops := packet.getD 16 0
      let fuel200 := packet.getD 17 0
      let remaining : ℤ := (size : ℤ) - 18
      if remaining ≤ 0 then none
      else if remaining < 24 then none
      else
        let spare := if 24 < remaining then packet.getD 18 0 else 0
        let nameOffset := if 24 < remaining then 19 else 18
        let remaining' := if 24 < remaining then remaining - 1 else remaining
        if remaining' < 24 then none
        else
          let nameBytes := (packet.drop nameOffset).take 24
          some { plid := plid, lap_time_ms := lapTime, estimate_time_ms := estTime
                 flags := flags, penalty := penalty, num_pit_stops := numStops
                 fuel_percent := fuel200, player_name := decodeLatin1Name nameBytes
                 spare := spare, raw_sp0 := sp0 }

/-- Method `InSimClient._parse_split_packet` (lines 919-981). -/
def parseSplitPacket (packet : List ℕ) : Option SplitEvent :=
  if packet.length < 4 + 8 + 2 then none
  else
    let size := packet.getD 0 0
    if packet.length < size then none
    else
      let plid := packet.getD 3 0
      let splitTime := le32 packet 4
      let estTime := le32 packet 8
      let flags := le16 packet 12
      let split := packet.getD 14 0
      let penalty := packet.getD 15 0
      let numStops := packet.getD 16 0
      let fuel200 := packet.getD 17 0
      let remaining : ℤ := (size : ℤ) - 18
      if remaining ≤ 0 then none
      else if remaining < 24 then none
      else
        let spare := if 24 < remaining then packet.getD 18 0 else 0
        let nameOffset := if 24 < remaining then 19 else 18
        let remaining' := if 24 < remaining then remaining - 1 else remaining
        if remaining' < 24 then none
        else
          let nameBytes := (packet.drop nameOffset).take 24
          some { plid := plid, split_time_ms := splitTime, estimate_time_ms := estTime
                 split_index := split, flags := flags, penalty := penalty
                 num_pit_stops := numStops, fuel_percent := fuel200
                 player_name := decodeLatin1Name nameBytes, spare := spare }

/-- Method `InSimClient._parse_button_click_packet` (lines 983-1005). -/
def parseButtonClickPacket (packet : List ℕ) : Option ButtonClickEvent :=
  if packet.length < 8 then none
  else
    let size := packet.getD 0 0
    if packet.length < size then none
    else
      some { req_id := packet.getD 2 0, ucid := packet.getD 3 0
             click_id := packet.getD 4 0, inst := packet.getD 5 0
             flags := le16 packet 6 }

/-- Decode one 28-byte MCI entry (`struct.unpack_from("<HHBBBBiiiHHHh")`). -/
def parseMciEntry (packet : List ℕ) (offset : ℕ) : CarInfo :=
  { node := le16 packet offset
    lap := le16 packet (offset + 2)
    plid := packet.getD (offset + 4) 0
    position := packet.getD (offset + 5) 0
    info := packet.getD (offset + 6) 0
    spare := packet.getD (offset + 7) 0
    x := le32s packet (offset + 8)
    y := le32s packet (offset + 12)
    z := le32s packet (offset + 16)
    speed := le16 packet (offset + 20)
    direction := le16 packet (offset + 22)
    heading := le16 packet (offset + 24)
    angular_velocity := le16s packet (offset + 26) }

/-- Entry-collection loop of `_parse_mci_packet`. -/
def parseMciEntries (packet : List ℕ) (offset : ℕ) : ℕ → List CarInfo
  | 0 => []
  | n + 1 =>
    if packet.length < offset + 28 then []
    else parseMciEntry packet offset :: parseMciEntries packet (offset + 28) n

/-- Method `InSimClient._parse_mci_packet` (lines 1007-1074): `none` models a
dropped packet, `some cars` an emitted `MultiCarInfoEvent`. -/
def parseMciPacket (packet : List ℕ) : Option (List CarInfo) :=
  if packet.length < 4 then none
  else
    let count := packet.getD 3 0
    if count = 0 then some []
    else
      let required := 4 + count * 28
      if packet.length < required then none
      else
        let cars := parseMciEntries packet 4 count
        if cars = [] then none else some cars

/-- Method `InSimClient._handle_is_sta` (lines 785-825). -/
def handleIsSta (st : ClientState) (packet : List ℕ) :
    ClientState × List InSimEvent :=
  if packet.length < 20 then (st, [])
  else
    let flags2 := le16 packet 16
    let viewPlidByte := if 10 < packet.length then packet.getD 10 0 else 0
    let viewPlid : Option ℕ := if viewPlidByte = 0 then none else some viewPlidByte
    let track : Option (List ℕ) :=
      if 26 ≤ packet.length then
        let t := decodeAsciiName ((packet.drop 20).take 6)
        if t = [] then none else some t
      else none
    let currentTrack := match track with
      | some t => some t
      | none => st.current_track
    let car : Option (List ℕ) := viewPlid.bind (plidLookup st.plid_to_car)
    let currentCar := match car with
      | some c => if c = [] then st.current_car else some c
      | none => st.current_car
    let st' := { st with last_flags2 := flags2, view_plid := viewPlid
                         current_track := currentTrack, current_car := currentCar }
    (st', [InSimEvent.state { flags2 := flags2, track := currentTrack
                              car := currentCar, view_plid := viewPlid }])

/-- Method `InSimClient._handle_is_npl` (lines 827-853). -/
def handleIsNpl (st : ClientState) (packet : List ℕ) :
    ClientState × List InSimEvent :=
  if packet.length < 44 then (st, [])
  else
    let plid := packet.getD 3 0
    let car := decodeAsciiName ((packet.drop 40).take 4)
    if car = [] then (st, [])
    else
      let plidToCar := plidInsert st.plid_to_car plid car
      let currentCar :=
        if st.view_plid = some plid then some car else st.current_car
      let st' := { st with plid_to_car := plidToCar, current_car := currentCar }
      (st', [InSimEvent.state { flags2 := st.last_flags2, track := st.current_track
                                car := currentCar, view_plid := st.view_plid }])

/-- Track/car context attachment for LAP events (lines 730-736). -/
def lapEventWithContext (st : ClientState) (e : LapEvent) : LapEvent :=
  let car := match plidLookup st.plid_to_car e.plid with
    | some c => some c
    | none => if st.view_plid = some e.plid then st.current_car else none
  { e with track := st.current_track, car := car }

/-- Track/car context attachment for SPX events (lines 743-749). -/
def splitEventWithContext (st : ClientState) (e : SplitEvent) : SplitEvent :=
  let car := match plidLookup st.plid_to_car e.plid with
    | some c => some c
    | none => if st.view_plid = some e.plid then st.current_car else none
  { e with track := st.current_track, car := car }

/-- Method `InSimClient._handle_packet` (lines 712-771): validate then dispatch
one framed packet, returning the updated state and emitted events. -/
def handlePacket (st : ClientState) (packet : List ℕ) :
    ClientState × List InSimEvent :=
  if packet.length < 2 then (st, [])
  else
    let packetType := packet.getD 1 0
    if ¬ validate packet then (st, [])
    else if packetType = ISP_VER then (st, [])
    else if packetType = ISP_STA then handleIsSta st packet
    else if packetType = ISP_NPL then handleIsNpl st packet
    else if packetType = ISP_LAP then
      match parseLapPacket packet with
      | some e => (st, [InSimEvent.lap (lapEventWithContext st e)])
      | none => (st, [])
    else if packetType = ISP_SPX then
      match parseSplitPacket packet with
      | some e => (st, [InSimEvent.split (splitEventWithContext st e)])
      | none => (st, [])
    else if packetType = ISP_BTC then
      match parseButtonClickPacket packet with
      | some e => (st, [InSimEvent.button e])
      | none => (st, [])
    else if packetType = ISP_MCI then
      match parseMciPacket packet with
      | some cars => (st, [InSimEvent.mci cars st.view_plid])
      | none => (st, [])
    else (st, [])

/-- The discard phase shrinks (or keeps) the buffer, and its result is a
suffix of the input. -/
theorem discardUntilValidHeader_suffix (bufferLimit : ℕ) (rc : Bool)
    (buf : List ℕ) : (discardUntilValidHeader bufferLimit rc buf).1 <:+ buf := by
  induction buf using discardUntilValidHeader.induct bufferLimit rc with
  | case1 buf hempty =>
    rw [discardUntilValidHeader, dif_pos hempty]
  | case2 buf hempty hscan =>
    rw [discardUntilValidHeader, dif_neg hempty, hscan]
    exact List.nil_suffix
  | case3 buf hempty offset hscan hoff ih =>
    rw [discardUntilValidHeader, dif_neg hempty, hscan]
    dsimp only
    rw [dif_pos hoff]
    exact ih.trans (List.drop_suffix offset buf)
  | case4 buf hempty offset hscan hoff hlen =>
    rw [discardUntilValidHeader, dif_neg hempty, hscan]
    dsimp only
    rw [dif_neg hoff, if_pos hlen]
  | case5 buf hempty offset hscan hoff hlen sz ty hvalid hincomplete =>
    rw [discardUntilValidHeader, dif_neg hempty, hscan]
    dsimp only
    rw [dif_neg hoff, if_neg hlen, if_pos hvalid, if_pos hincomplete]
  | case6 buf hempty offset hscan hoff hlen sz ty hvalid hcomplete =>
    rw [discardUntilValidHeader, dif_neg hempty, hscan]
    dsimp only
    rw [dif_neg hoff, if_neg hlen, if_pos hvalid, if_neg hcomplete]
  | case7 buf hempty offset hscan hoff hlen sz ty hvalid ih =>
    rw [discardUntilValidHeader, dif_neg hempty, hscan]
    dsimp only
    rw [dif_neg hoff, if_neg hlen,
      if_neg (show ¬ validateHeader (buf.getD 0 0) (buf.getD 1 0) = true from hvalid)]
    exact ih.trans (List.drop_suffix _ buf)

/-- Length bound following from the suffix property. -/
theorem discardUntilValidHeader_length_le (bufferLimit : ℕ) (rc : Bool)
    (buf : List ℕ) :
    (discardUntilValidHeader bufferLimit rc buf).1.length ≤ buf.length :=
  (discardUntilValidHeader_suffix bufferLimit rc buf).length_le

/-- Method `InSimClient._process_buffer` (lines 616-635): repeatedly resync,
slice one complete packet off the front and dispatch it. Returns the
final state, the remaining buffer and all emitted events. -/
def processBuffer (st : ClientState) (bufferLimit : ℕ) (buf : List ℕ) :
    ClientState × List ℕ × List InSimEvent :=
  if hempty : buf.isEmpty then (st, buf, [])
  else
    let buf₁ := (discardUntilValidHeader bufferLimit false buf).1
    let found := (discardUntilValidHeader bufferLimit false buf).2
    if ¬ found then (st, buf₁, [])
    else if buf₁.length < 2 then (st, buf₁, [])
    else
      let packetSize := buf₁.getD 0 0
      if hzero : packetSize = 0 then (st, [], [])
      else if buf₁.length < packetSize then (st, buf₁, [])
      else
        let hp := handlePacket st (buf₁.take packetSize)
        let pr := processBuffer hp.1 bufferLimit (buf₁.drop packetSize)
        (pr.1, pr.2.1, hp.2 ++ pr.2.2)
termination_by buf.length
decreasing_by
  have hsfx := discardUntilValidHeader_length_le bufferLimit false buf
  have hne : buf ≠ [] := by simpa [List.isEmpty_iff] using hempty
  have hpos : 0 < buf.length := List.length_pos.mpr hne
  have h1 : buf₁.length = (discardUntilValidHeader bufferLimit false buf).1.length := rfl
  have h2 : buf₁.getD 0 0 = (discardUntilValidHeader bufferLimit false buf).1.getD 0 0 := rfl
  simp only [List.length_drop]
  omega

/-! ### Buffer cap (C7) -/

/-- When the cap overflows, the truncation step of `_append_to_buffer`
keeps exactly the newest `bufferLimit` bytes of `buf ++ data`. -/
theorem appendTruncate_eq_drop (bufferLimit : ℕ) (buf data : List ℕ)
    (hpos : 0 < bufferLimit)
    (hover : bufferLimit < buf.length + data.length) :
    appendTruncate bufferLimit buf data =
      (buf ++ data).drop (buf.length + data.length - bufferLimit) := by
  unfold appendTruncate
  by_cases hc : buf.length ≤ buf.length + data.length - bufferLimit
  · by_cases hc2 : data.length ≤ buf.length + data.length - bufferLimit - buf.length
    · exfalso; omega
    · simp only [hc, if_pos, hc2, if_neg, if_true, if_false]
      rw [List.drop_append_eq_append_drop,
        List.drop_eq_nil_of_le (le_of_le_of_eq hc rfl)]
      simp only [List.nil_append]
  · simp only [hc, if_neg, if_false]
    rw [List.drop_append_eq_append_drop,
      Nat.sub_eq_zero_of_le (le_of_not_le hc), List.drop_zero]

/-- The truncation step keeps exactly `bufferLimit` bytes on overflow. -/
theorem appendTruncate_length (bufferLimit : ℕ) (buf data : List ℕ)
    (hpos : 0 < bufferLimit)
    (hover : bufferLimit < buf.length + data.length) :
    (appendTruncate bufferLimit buf data).length = bufferLimit := by
  rw [appendTruncate_eq_drop bufferLimit buf data hpos hover]
  simp only [List.length_drop, List.length_append]
  omega

/-- Claim C7: appending any byte slice keeps the InSim buffer within
`buffer_limit`; on overflow the truncation step discards exactly the
oldest `(existing + incoming) - cap` bytes (keeping the newest bytes),
and the buffer retained after the subsequent resynchronisation is a
suffix of those newest bytes. -/
theorem c7_buffer_limit (bufferLimit : ℕ) (buf data : List ℕ)
    (hbuf : buf.length ≤ bufferLimit) :
    (appendToBuffer bufferLimit buf data).length ≤ bufferLimit ∧
    (0 < bufferLimit → bufferLimit < buf.length + data.length → data ≠ [] →
      appendTruncate bufferLimit buf data =
        (buf ++ data).drop (buf.length + data.length - bufferLimit) ∧
      appendToBuffer bufferLimit buf data <:+
        (buf ++ data).drop (buf.length + data.length - bufferLimit)) := by
  constructor
  · unfold appendToBuffer
    by_cases h0 : bufferLimit = 0
    · simp [h0]
    · rw [if_neg h0]
      by_cases hd : data.isEmpty = true
      · rw [if_pos hd]
        exact hbuf
      · rw [if_neg hd]
        by_cases hfit : buf.length + data.length ≤ bufferLimit
        · rw [if_pos hfit]
          simpa using hfit
        · rw [if_neg hfit]
          dsimp only
          have hlen := appendTruncate_length bufferLimit buf data
            (Nat.pos_of_ne_zero h0) (lt_of_not_le hfit)
          by_cases hemp : (appendTruncate bufferLimit buf data).isEmpty = true
          · rw [if_pos hemp]
            have hnil : appendTruncate bufferLimit buf data = [] := by
              simpa using hemp
            rw [hnil]
            simp
          · rw [if_neg hemp]
            calc (discardUntilValidHeader bufferLimit true
                    (appendTruncate bufferLimit buf data)).1.length
                ≤ (appendTruncate bufferLimit buf data).length :=
                  discardUntilValidHeader_length_le _ _ _
              _ = bufferLimit := hlen
  · intro hpos hover hdata
    refine ⟨appendTruncate_eq_drop bufferLimit buf data hpos hover, ?_⟩
    rw [← appendTruncate_eq_drop bufferLimit buf data hpos hover]
    unfold appendToBuffer
    rw [if_neg (Nat.pos_iff_ne_zero.mp hpos),
      if_neg (by simpa [List.isEmpty_iff] using hdata),
      if_neg (not_le.mpr hover)]
    dsimp only
    by_cases hemp : (appendTruncate bufferLimit buf data).isEmpty = true
    · rw [if_pos hemp]
    · rw [if_neg hemp]
      exact discardUntilValidHeader_suffix _ _ _

/-- Witness for `c7_buffer_limit`: the spec's buffer-overflow scenario
(`buffer_limit = 12`; a 4-byte fragment, a 4-byte corrupt packet and an
8-byte BTC packet appended at once). -/
theorem c7_buffer_limit_witness :
    ([4, 1, 0, 0] : List ℕ).length ≤ 12 ∧
    (appendToBuffer 12 [4, 1, 0, 0]
        [4, 200, 0, 0, 8, 47, 0, 0, 0, 0, 0, 0]).length ≤ 12 ∧
    appendTruncate 12 [4, 1, 0, 0] [4, 200, 0, 0, 8, 47, 0, 0, 0, 0, 0, 0] =
      (([4, 1, 0, 0] : List ℕ) ++
        [4, 200, 0, 0, 8, 47, 0, 0, 0, 0, 0, 0]).drop 4 ∧
    appendToBuffer 12 [4, 1, 0, 0] [4, 200, 0, 0, 8, 47, 0, 0, 0, 0, 0, 0] <:+
      (([4, 1, 0, 0] : List ℕ) ++
        [4, 200, 0, 0, 8, 47, 0, 0, 0, 0, 0, 0]).drop 4 :=
  ⟨by decide,
    (c7_buffer_limit 12 [4, 1, 0, 0] [4, 200, 0, 0, 8, 47, 0, 0, 0, 0, 0, 0]
      (by decide)).1,
    ((c7_buffer_limit 12 [4, 1, 0, 0] [4, 200, 0, 0, 8, 47, 0, 0, 0, 0, 0, 0]
      (by decide)).2 (by decide) (by decide) (by decide)).1,
    ((c7_buffer_limit 12 [4, 1, 0, 0] [4, 200, 0, 0, 8, 47, 0, 0, 0, 0, 0, 0]
      (by decide)).2 (by decide) (by decide) (by decide)).2⟩

/-! ### LAP/SPX trailing-segment handling (C3) -/

/-- Facts extracted from a successful validation. -/
theorem validate_true_facts {p : List ℕ} (hv : validate p = true) :
    2 ≤ p.length ∧ p.getD 0 0 ≤ p.length ∧
      validateHeader (p.getD 0 0) (p.getD 1 0) = true := by
  unfold validate at hv
  by_cases h1 : p.length < 2
  · rw [if_pos h1] at hv
    exact absurd hv (by simp)
  · rw [if_neg h1] at hv
    dsimp only at hv
    by_cases h2 : validateHeader (p.getD 0 0) (p.getD 1 0) = true
    · rw [if_neg (not_not_intro h2)] at hv
      by_cases h3 : p.length < p.getD 0 0
      · rw [if_pos h3] at hv
        exact absurd hv (by simp)
      · exact ⟨by omega, by omega, h2⟩
    · rw [if_pos h2] at hv
      exact absurd hv (by simp)

/-- Size bounds implied by a valid LAP header. -/
theorem validateHeader_lap_bounds {size : ℕ}
    (h : validateHeader size ISP_LAP = true) : 42 ≤ size ∧ size ≤ 96 := by
  unfold validateHeader at h
  rw [show sizeBounds ISP_LAP = some (42, 96) from rfl] at h
  by_cases h1 : size < 4
  · simp [h1] at h
  · simp only [h1, if_false] at h
    by_cases h2 : size < 42
    · simp [h2] at h
    · by_cases h3 : 96 < size
      · simp [h2, h3] at h
      · omega

/-- Size bounds implied by a valid SPX header. -/
theorem validateHeader_spx_bounds {size : ℕ}
    (h : validateHeader size ISP_SPX = true) : 42 ≤ size ∧ size ≤ 96 := by
  unfold validateHeader at h
  rw [show sizeBounds ISP_SPX = some (42, 96) from rfl] at h
  by_cases h1 : size < 4
  · simp [h1] at h
  · simp only [h1, if_false] at h
    by_cases h2 : size < 42
    · simp [h2] at h
    · by_cases h3 : 96 < size
      · simp [h2, h3] at h
      · omega

/-- Claim C3 (amended): for every header-valid `IS_LAP` (resp. `IS_SPX`)
packet the decoder emits exactly one event; the parser rejects with no
event exactly those packets whose trailing segment after the four 1-byte
fields (declared size minus 18) is fewer than 24 bytes, and it accepts
every longer segment (for 25 bytes and more it consumes one spare byte
before the 24-byte name). -/
theorem c3_lap_spx_trailing (p : List ℕ) :
    (validate p = true → p.getD 1 0 = ISP_LAP →
      (parseLapPacket p).isSome = true) ∧
    (validate p = true → p.getD 1 0 = ISP_SPX →
      (parseSplitPacket p).isSome = true) ∧
    ((p.getD 0 0 : ℤ) - 18 < 24 →
      parseLapPacket p = none ∧ parseSplitPacket p = none) := by
  refine ⟨?_, ?_, ?_⟩
  · intro hv hty
    obtain ⟨hl2, hsz, hvh⟩ := validate_true_facts hv
    rw [hty] at hvh
    obtain ⟨hlo, hhi⟩ := validateHeader_lap_bounds hvh
    unfold parseLapPacket
    rw [if_neg (by omega), if_neg (by omega),
      if_neg (by push_cast; omega), if_neg (by push_cast; omega),
      if_neg (by split <;> push_cast <;> omega)]
    rfl
  · intro hv hty
    obtain ⟨hl2, hsz, hvh⟩ := validate_true_facts hv
    rw [hty] at hvh
    obtain ⟨hlo, hhi⟩ := validateHeader_spx_bounds hvh
    unfold parseSplitPacket
    rw [if_neg (by omega), if_neg (by omega),
      if_neg (by push_cast; omega), if_neg (by push_cast; omega),
      if_neg (by split <;> push_cast <;> omega)]
    rfl
  · intro hshort
    constructor
    · unfold parseLapPacket
      dsimp only
      split_ifs <;> first | rfl | omega
    · unfold parseSplitPacket
      dsimp only
      split_ifs <;> first | rfl | omega

/-- A header-valid 44-byte `IS_LAP` packet whose trailing segment is 26
bytes: `[size=44, type=LAP, reqi=0, plid=5]`, `lap_time=73000`,
`est=74000`, `flags=0`, the four one-byte fields, one spare byte, the
name `"Driver"` NUL-padded to 24 bytes, and one unused trailing byte. -/
def c3LapPacket26 : List ℕ :=
  [44, 28, 0, 5, 40, 29, 1, 0, 16, 33, 1, 0, 0, 0, 0, 0, 0, 0, 7,
   68, 114, 105, 118, 101, 114] ++ List.replicate 18 0 ++ [0]

/-- Claim C3 counterexample: a header-valid LAP packet with a 26-byte trailing
segment is *accepted* by the decoder (one event is emitted), refuting the
claim that any length other than 24 or 25 is rejected. -/
theorem c3_trailing26_accepted :
    validate c3LapPacket26 = true ∧
    (c3LapPacket26.getD 0 0 : ℤ) - 18 = 26 ∧
    (parseLapPacket c3LapPacket26).isSome = true ∧
    (parseLapPacket c3LapPacket26).map (·.lap_time_ms) = some 73000 := by
  refine ⟨by decide, by decide, by decide, by decide⟩

/-- A header-valid 64-byte LAP packet (46-byte trailing segment). -/
def c3WitnessLap : List ℕ :=
  [64, 28, 0, 5, 40, 29, 1, 0, 16, 33, 1, 0, 0, 0, 0, 0, 0, 0] ++
    List.replicate 46 0

/-- A header-valid 42-byte SPX packet (24-byte trailing segment,
`split_time=12000`, `est=13000`, `split_index=1`). -/
def c3WitnessSpx : List ℕ :=
  [42, 29, 0, 5, 224, 46, 0, 0, 200, 50, 0, 0, 0, 0, 1, 0, 0, 0] ++
    List.replicate 24 0

/-- A 30-byte packet whose trailing segment (12 bytes) is shorter than a
player name. -/
def c3WitnessShort : List ℕ :=
  [30, 28, 0, 7] ++ List.replicate 26 0

/-- Witness for `c3_lap_spx_trailing` at concrete packets: a 64-byte LAP
packet, a 42-byte SPX packet, and a 30-byte truncated LAP/SPX prefix. -/
theorem c3_lap_spx_trailing_witness :
    (validate c3WitnessLap = true ∧
      (parseLapPacket c3WitnessLap).isSome = true) ∧
    (validate c3WitnessSpx = true ∧
      (parseSplitPacket c3WitnessSpx).isSome = true) ∧
    ((c3WitnessShort.getD 0 0 : ℤ) - 18 < 24 ∧
      parseLapPacket c3WitnessShort = none ∧
      parseSplitPacket c3WitnessShort = none) :=
  ⟨⟨by decide, (c3_lap_spx_trailing c3WitnessLap).1 (by decide) (by decide)⟩,
   ⟨by decide, (c3_lap_spx_trailing c3WitnessSpx).2.1 (by decide) (by decide)⟩,
   ⟨by decide,
    ((c3_lap_spx_trailing c3WitnessShort).2.2 (by decide)).1,
    ((c3_lap_spx_trailing c3WitnessShort).2.2 (by decide)).2⟩⟩

/-! ### Wrapped MCI size byte (C2) -/

/-- The decoder state right after `connect` resets all context. -/
def initClientState : ClientState := {}

/-- An `IS_MCI` packet with `count = 9`: its true byte length is
`4 + 28·9 = 256`, so the 1-byte size field wraps to `0`. All nine
28-byte entries are zero. -/
def mciWrappedPacket : List ℕ :=
  0 :: 38 :: 0 :: 9 :: List.replicate 252 0

set_option maxRecDepth 10000 in
/-- Claim C2 evaluated at the failing input: the 256-byte MCI packet with a
wrapped (0) size byte parses to nine car entries, and the framer accepts
it into the buffer unchanged, yet `_process_buffer` delivers nothing —
no `MultiCarInfo` event is emitted and the buffer is cleared. The repo's
own test `test_handle_packet_accepts_mci_with_wrapped_header` requires
the opposite. -/
theorem c2_wrapped_mci_dropped :
    mciWrappedPacket.length = 4 + 28 * 9 ∧
    mciWrappedPacket.getD 0 0 = (4 + 28 * 9) % 256 ∧
    (parseMciPacket mciWrappedPacket).map List.length = some 9 ∧
    appendToBuffer 65536 [] mciWrappedPacket = mciWrappedPacket ∧
    processBuffer initClientState 65536 mciWrappedPacket =
      (initClientState, [], []) := by
  refine ⟨by decide, by decide, by decide, by decide, ?_⟩
  have hscan : scanForValidPacketStart 65536 false mciWrappedPacket = none := by
    decide
  have hdis : discardUntilValidHeader 65536 false mciWrappedPacket =
      ([], false) := by
    rw [discardUntilValidHeader, dif_neg (by decide), hscan]
  rw [processBuffer, dif_neg (by decide)]
  dsimp only
  rw [hdis]
  rfl

/-! ### NPL handling (C10) -/

/-- Size bounds implied by a valid NPL header. -/
theorem validateHeader_npl_bounds {size : ℕ}
    (h : validateHeader size ISP_NPL = true) : 44 ≤ size ∧ size ≤ 120 := by
  unfold validateHeader at h
  rw [show sizeBounds ISP_NPL = some (44, 120) from rfl] at h
  by_cases h1 : size < 4
  · simp [h1] at h
  · simp only [h1, if_false] at h
    by_cases h2 : size < 44
    · simp [h2] at h
    · by_cases h3 : 120 < size
      · simp [h2, h3] at h
      · omega

/-- Size bound implied by a valid STA header. -/
theorem validateHeader_sta_bounds {size : ℕ}
    (h : validateHeader size ISP_STA = true) : size = 28 := by
  unfold validateHeader at h
  rw [show sizeBounds ISP_STA = some (28, 28) from rfl] at h
  by_cases h1 : size < 4
  · simp [h1] at h
  · simp only [h1, if_false] at h
    by_cases h2 : size < 28
    · simp [h2] at h
    · by_cases h3 : 28 < size
      · simp [h2, h3] at h
      · omega

/-- Lookup after insert in the `plid_to_car` dictionary. -/
theorem plidLookup_insert (m : List (ℕ × List ℕ)) (plid : ℕ) (car : List ℕ) :
    plidLookup (plidInsert m plid car) plid = some car := by
  induction m with
  | nil => simp [plidInsert, plidLookup, List.find?]
  | cons e es ih =>
    unfold plidInsert
    by_cases he : e.1 = plid
    · simp [he, plidLookup, List.find?]
    · simpa [plidLookup, List.find?, he] using ih

/-- Claim C10 (amended): for every valid `IS_NPL` packet whose decoded car
name is non-empty, the decoder records the car under the decoded PLID,
updates `current_car` exactly when the PLID equals `view_plid`, and
emits a single `StateEvent` whose `flags2` is the most recently observed
`flags2` value (the one stored by the last `IS_STA`, not zero); moreover
every valid `IS_STA` packet stores its `flags2` field (16-bit LE at
offset 16) as that most-recent value. -/
theorem c10_npl_records_and_emits (st : ClientState) (p q : List ℕ)
    (hv : validate p = true) (hty : p.getD 1 0 = ISP_NPL)
    (hcar : ¬ decodeAsciiName ((p.drop 40).take 4) = []) :
    (plidLookup (handlePacket st p).1.plid_to_car (p.getD 3 0) =
        some (decodeAsciiName ((p.drop 40).take 4)) ∧
      (handlePacket st p).1.current_car =
        (if st.view_plid = some (p.getD 3 0) then
          some (decodeAsciiName ((p.drop 40).take 4))
         else st.current_car) ∧
      (handlePacket st p).2 =
        [InSimEvent.state
          { flags2 := st.last_flags2, track := st.current_track
            car := if st.view_plid = some (p.getD 3 0) then
                some (decodeAsciiName ((p.drop 40).take 4))
              else st.current_car
            view_plid := st.view_plid }]) ∧
    (validate q = true → q.getD 1 0 = ISP_STA →
      (handlePacket st q).1.last_flags2 = le16 q 16) := by
  constructor
  · obtain ⟨hl2, hsz, hvh⟩ := validate_true_facts hv
    rw [hty] at hvh
    obtain ⟨hlo, hhi⟩ := validateHeader_npl_bounds hvh
    unfold handlePacket
    rw [if_neg (by omega : ¬ p.length < 2)]
    dsimp only
    rw [if_neg (not_not_intro hv), if_neg (by rw [hty]; decide),
      if_neg (by rw [hty]; decide), if_pos hty]
    unfold handleIsNpl
    rw [if_neg (by omega : ¬ p.length < 44)]
    dsimp only
    rw [if_neg hcar]
    exact ⟨plidLookup_insert _ _ _, rfl, rfl⟩
  · intro hvq htyq
    obtain ⟨hl2, hsz, hvh⟩ := validate_true_facts hvq
    rw [htyq] at hvh
    have hsize := validateHeader_sta_bounds hvh
    unfold handlePacket
    rw [if_neg (by omega : ¬ q.length < 2)]
    dsimp only
    rw [if_neg (not_not_intro hvq), if_neg (by rw [htyq]; decide),
      if_pos htyq]
    unfold handleIsSta
    rw [if_neg (by omega : ¬ q.length < 20)]

/-- An `IS_NPL` packet whose car-name field holds only NUL bytes. -/
def nplEmptyCarPacket : List ℕ :=
  [44, 21, 0, 12] ++ List.replicate 40 0

/-- Claim C10 counterexample: a validator-accepted `IS_NPL` packet whose car
field decodes to the empty string is silently ignored — nothing is
recorded in `plid_to_car` and no `StateEvent` is emitted, refuting the
claim for *every* valid NPL packet. -/
theorem c10_npl_empty_car_ignored :
    validate nplEmptyCarPacket = true ∧
    handlePacket initClientState nplEmptyCarPacket = (initClientState, []) := by
  exact ⟨by decide, by decide⟩

/-- Decoder state for the `C10` witness: viewing PLID 12 on track `SO1`
with multiplayer flag observed (`last_flags2 = 1`). -/
def c10WitnessState : ClientState :=
  { plid_to_car := [], current_track := some [83, 79, 49]
    current_car := none, view_plid := some 12, last_flags2 := 1 }

/-- The repo test's 76-byte NPL packet: PLID 12, car `"FXO "`. -/
def c10WitnessNpl : List ℕ :=
  [76, 21, 0, 12] ++ List.replicate 36 0 ++ [70, 88, 79, 32] ++
    List.replicate 32 0

/-- A 28-byte STA packet: view PLID 12, `flags2 = 1`, track `"BL1"`. -/
def c10WitnessSta : List ℕ :=
  [28, 5, 0, 0, 0, 0, 0, 0, 0, 0, 12, 0, 0, 0, 0, 0, 1, 0, 0, 0,
   66, 76, 49, 0, 0, 0, 0, 0]

/-- Witness for `c10_npl_records_and_emits` at the repo test's packets. -/
theorem c10_npl_records_and_emits_witness :
    validate c10WitnessNpl = true ∧
    (plidLookup (handlePacket c10WitnessState c10WitnessNpl).1.plid_to_car 12 =
        some [70, 88, 79] ∧
      (handlePacket c10WitnessState c10WitnessNpl).1.current_car =
        some [70, 88, 79] ∧
      (handlePacket c10WitnessState c10WitnessNpl).2 =
        [InSimEvent.state
          { flags2 := 1, track := some [83, 79, 49]
            car := some [70, 88, 79], view_plid := some 12 }]) ∧
    (handlePacket c10WitnessState c10WitnessSta).1.last_flags2 = 1 := by
  have h := c10_npl_records_and_emits c10WitnessState c10WitnessNpl
    c10WitnessSta (by decide) (by decide) (by decide)
  exact ⟨by decide, h.1, h.2 (by decide) (by decide)⟩

/-! ## Personal-best store (`src/src/persistence.py`)

The single `pb` table keyed by `(track, car)` is modelled as an
association list; the `date` column is the timestamp integer. SQL errors
raised by `record_lap` are modelled with `Except`. -/

/-- The `pb` table: `(track, car) ↦ (laptime_ms, date)`. -/
abbrev PBStore := List ((String × String) × ℤ × ℤ)

/-- Query `SELECT ... FROM pb WHERE track = ? AND car = ?`. -/
def storeLookup (store : PBStore) (track car : String) : Option (ℤ × ℤ) :=
  (store.find? (fun e => e.1 = (track, car))).map (·.2)

/-- Statement `INSERT ... ON CONFLICT(track, car) DO UPDATE`. -/
def storeUpsert (store : PBStore) (track car : String) (ms ts : ℤ) : PBStore :=
  match store with
  | [] => [((track, car), ms, ts)]
  | e :: es =>
    if e.1 = (track, car) then ((track, car), ms, ts) :: es
    else e :: storeUpsert es track car ms ts

/-- Function `record_lap` from `src/src/persistence.py` (lines 113-159): returns
the new store contents, the active PB record and the improvement flag,
or an error for a negative lap time. -/
def recordLap (store : PBStore) (track car : String) (ms ts : ℤ) :
    Except String (PBStore × PBRecord × Bool) :=
  if ms < 0 then .error "Lap time must be non-negative"
  else
    match storeLookup store track car with
    | none =>
      .ok (storeUpsert store track car ms ts, ⟨track, car, ms, ts⟩, true)
    | some (pms, pts) =>
      if ms < pms then
        .ok (storeUpsert store track car ms ts, ⟨track, car, ms, ts⟩, true)
      else
        .ok (store, ⟨track, car, pms, pts⟩, false)

/-- Lookup after upsert on the same key. -/
theorem storeLookup_upsert_self (store : PBStore) (track car : String)
    (ms ts : ℤ) :
    storeLookup (storeUpsert store track car ms ts) track car = some (ms, ts) := by
  induction store with
  | nil => simp [storeUpsert, storeLookup, List.find?]
  | cons e es ih =>
    unfold storeUpsert
    by_cases he : e.1 = (track, car)
    · simp [he, storeLookup, List.find?]
    · simpa [storeLookup, List.find?, he] using ih

/-- Claim C4: `record_lap` inserts and reports improvement when no prior row
exists, updates and reports improvement exactly when the new time is
strictly faster, returns the prior row unchanged otherwise, rejects
negative lap times with an error before any state change, and never
increases the stored `laptime_ms` of an existing `(track, car)` row. -/
theorem c4_record_lap (store : PBStore) (track car : String) (ms ts : ℤ) :
    (ms < 0 →
      recordLap store track car ms ts = .error "Lap time must be non-negative") ∧
    (0 ≤ ms →
      (storeLookup store track car = none →
        recordLap store track car ms ts =
          .ok (storeUpsert store track car ms ts, ⟨track, car, ms, ts⟩, true)) ∧
      (∀ pms pts, storeLookup store track car = some (pms, pts) →
        (ms < pms → recordLap store track car ms ts =
            .ok (storeUpsert store track car ms ts, ⟨track, car, ms, ts⟩, true)) ∧
        (pms ≤ ms → recordLap store track car ms ts =
            .ok (store, ⟨track, car, pms, pts⟩, false)))) ∧
    (∀ s' r b, recordLap store track car ms ts = .ok (s', r, b) →
      ∀ pms pts, storeLookup store track car = some (pms, pts) →
      ∀ nms nts, storeLookup s' track car = some (nms, nts) → nms ≤ pms) := by
  refine ⟨?_, ?_, ?_⟩
  · intro hneg
    simp [recordLap, hneg]
  · intro hpos
    constructor
    · intro hnone
      simp [recordLap, not_lt.mpr hpos, hnone]
    · intro pms pts hsome
      constructor
      · intro hfaster
        simp [recordLap, not_lt.mpr hpos, hsome, hfaster]
      · intro hslower
        simp [recordLap, not_lt.mpr hpos, hsome, not_lt.mpr hslower]
  · intro s' r b hok pms pts hsome nms nts hnew
    unfold recordLap at hok
    by_cases hneg : ms < 0
    · simp [hneg] at hok
    · rw [if_neg hneg, hsome] at hok
      dsimp only at hok
      by_cases hfaster : ms < pms
      · rw [if_pos hfaster] at hok
        have hs' : s' = storeUpsert store track car ms ts := by
          injection hok with h
          exact (congrArg Prod.fst h).symm
        rw [hs', storeLookup_upsert_self] at hnew
        injection hnew with h2
        have : nms = ms := congrArg Prod.fst h2.symm
        omega
      · rw [if_neg hfaster] at hok
        have hs' : s' = store := by
          injection hok with h
          exact (congrArg Prod.fst h).symm
        rw [hs', hsome] at hnew
        injection hnew with h2
        have : nms = pms := congrArg Prod.fst h2.symm
        omega

/-- Witness for `c4_record_lap`: the spec's track-change scenario lap,
`record_lap("BL2", "UF1", 64000)` on an empty store. -/
theorem c4_record_lap_witness :
    (0 : ℤ) ≤ 64000 ∧ storeLookup [] "BL2" "UF1" = none ∧
    recordLap [] "BL2" "UF1" 64000 0 =
      .ok (storeUpsert [] "BL2" "UF1" 64000 0,
        ⟨"BL2", "UF1", 64000, 0⟩, true) :=
  ⟨by decide, rfl,
    ((c4_record_lap [] "BL2" "UF1" 64000 0).2.1 (by decide)).1 rfl⟩

/-- Claim C9: `record_lap` is idempotent under replay — repeating a call with
the identical `(track, car, ms, timestamp)` leaves the store unchanged
and returns the same stored record (with `improved = false`). -/
theorem c9_record_lap_idempotent (store : PBStore) (track car : String)
    (ms ts : ℤ) (hms : 0 ≤ ms) (s1 : PBStore) (r1 : PBRecord) (b1 : Bool)
    (hfirst : recordLap store track car ms ts = .ok (s1, r1, b1)) :
    recordLap s1 track car ms ts = .ok (s1, r1, false) := by
  unfold recordLap at hfirst ⊢
  rw [if_neg (not_lt.mpr hms)] at hfirst ⊢
  rcases hlk : storeLookup store track car with _ | ⟨pms, pts⟩
  · rw [hlk] at hfirst
    dsimp only at hfirst
    have hs1 : s1 = storeUpsert store track car ms ts := by
      injection hfirst with h
      exact (congrArg Prod.fst h).symm
    have hr1 : r1 = ⟨track, car, ms, ts⟩ := by
      injection hfirst with h
      exact (congrArg (fun x => x.2.1) h).symm
    rw [hs1, hr1, storeLookup_upsert_self]
    dsimp only
    rw [if_neg (lt_irrefl ms)]
  · rw [hlk] at hfirst
    dsimp only at hfirst
    by_cases hfaster : ms < pms
    · rw [if_pos hfaster] at hfirst
      have hs1 : s1 = storeUpsert store track car ms ts := by
        injection hfirst with h
        exact (congrArg Prod.fst h).symm
      have hr1 : r1 = ⟨track, car, ms, ts⟩ := by
        injection hfirst with h
        exact (congrArg (fun x => x.2.1) h).symm
      rw [hs1, hr1, storeLookup_upsert_self]
      dsimp only
      rw [if_neg (lt_irrefl ms)]
    · rw [if_neg hfaster] at hfirst
      have hs1 : s1 = store := by
        injection hfirst with h
        exact (congrArg Prod.fst h).symm
      have hr1 : r1 = ⟨track, car, pms, pts⟩ := by
        injection hfirst with h
        exact (congrArg (fun x => x.2.1) h).symm
      rw [hs1, hr1, hlk]
      dsimp only
      rw [if_neg hfaster]

/-- Witness for `c9_record_lap_idempotent`: replaying
`record_lap("BL1", "XFG", 73000, ts=0)` on an empty store. -/
theorem c9_record_lap_idempotent_witness :
    (0 : ℤ) ≤ 73000 ∧
    recordLap [] "BL1" "XFG" 73000 0 =
      .ok ([(("BL1", "XFG"), 73000, 0)], ⟨"BL1", "XFG", 73000, 0⟩, true) ∧
    recordLap [(("BL1", "XFG"), 73000, 0)] "BL1" "XFG" 73000 0 =
      .ok ([(("BL1", "XFG"), 73000, 0)], ⟨"BL1", "XFG", 73000, 0⟩, false) :=
  ⟨by decide, rfl,
    c9_record_lap_idempotent [] "BL1" "XFG" 73000 0 (by decide)
      [(("BL1", "XFG"), 73000, 0)] ⟨"BL1", "XFG", 73000, 0⟩ true rfl⟩

/-! ## OutSim ingester (`src/src/outsim_client.py`)

The network type and IP parsing/membership of Python's `ipaddress`
module are abstracted as parameters; only the entry trimming/skipping
logic and the constructor wiring are the code under study. -/

/-- Python `str.isspace()`: the full set of code points CPython treats
as whitespace (ASCII controls 9-13 and 28-31, SPACE, NEL, NBSP, OGHAM
SPACE MARK, the EN QUAD..HAIR SPACE range, LINE/PARAGRAPH SEPARATOR,
NARROW NBSP, MEDIUM MATHEMATICAL SPACE, IDEOGRAPHIC SPACE). -/
def pyIsSpace (c : Char) : Bool :=
  [9, 10, 11, 12, 13, 28, 29, 30, 31, 32, 133, 160, 5760,
   8192, 8193, 8194, 8195, 8196, 8197, 8198, 8199, 8200, 8201, 8202,
   8232, 8233, 8239, 8287, 12288].contains c.toNat

/-- Python `str.strip()` (strings modelled as character lists). -/
def pyStrip (s : List Char) : List Char :=
  ((s.dropWhile pyIsSpace).reverse.dropWhile pyIsSpace).reverse

/-- Method `OutSimClient._normalise_allowed_sources` (lines 129-143): trim each
entry, skip empty ones, parse the rest; a parse failure raises. -/
def normaliseAllowedSources {α : Type} (parseNet : List Char → Option α) :
    List (List Char) → Except String (List α)
  | [] => .ok []
  | entry :: rest =>
    let text := pyStrip entry
    if text = [] then normaliseAllowedSources parseNet rest
    else
      match parseNet text with
      | none => .error "Invalid OutSim allowed source"
      | some network => (normaliseAllowedSources parseNet rest).map (network :: ·)

/-- The `_allowed_networks` computation of `OutSimClient.__init__`
(lines 105-127): `None` when no filtering is configured (including the
falsy empty list), otherwise the normalised network tuple. -/
def outSimAllowedNetworks {α : Type} (parseNet : List Char → Option α)
    (allowedSources : Option (List (List Char))) :
    Except String (Option (List α)) :=
  match allowedSources with
  | none => .ok none
  | some entries =>
    if entries.isEmpty then .ok none
    else (normaliseAllowedSources parseNet entries).map some

/-- Method `OutSimClient._is_source_allowed` (lines 185-198), with network
membership abstracted. -/
def isSourceAllowed {α β : Type} (member : β → α → Bool)
    (allowedNetworks : Option (List α)) (sourceIp : β) : Bool :=
  match allowedNetworks with
  | none => true
  | some networks => networks.any (member sourceIp)

/-- Claim C5 evaluated at the failing input: constructing the OutSim client
with only whitespace `allowed_sources` entries does *not* raise — the
entries are skipped, the constructor succeeds with an empty network
tuple, and every packet source is then rejected. The repo's own test
`test_outsim_client_validates_allowed_source_entries` requires a
`ValueError` instead. -/
theorem c5_whitespace_sources_not_rejected {α β : Type}
    (parseNet : List Char → Option α) (member : β → α → Bool) (ip : β) :
    normaliseAllowedSources parseNet [[' ', ' ', ' '], ['\t', '\n']] = .ok [] ∧
    outSimAllowedNetworks parseNet
      (some [[' ', ' ', ' '], ['\t', '\n']]) = .ok (some []) ∧
    outSimAllowedNetworks parseNet (some []) = .ok none ∧
    isSourceAllowed member (some []) ip = false := by
  refine ⟨rfl, rfl, rfl, rfl⟩

/-! ## OutSim rate limiter (C6)

Modelled from the spec: `max_packets_per_second` handling is absent from
`src/src/outsim_client.py` — only its tests
(`tests/test_outsim_security.py`) and its caller (`src/main.py`,
which passes `max_packets_per_second` to the constructor) refer to it.
Specification §4.4: "must be strictly positive; enforced via a simple
token bucket of capacity `ceil(rate)` refilled at `rate` tokens per
second using a monotonic clock. Excess packets are dropped with a
warning." -/

/-- Modelled from the spec: the token-bucket state of the OutSim rate
limiter (capacity `ceil(rate)`; `lastRefill` is the last monotonic-clock
reading). -/
structure TokenBucket where
  capacity : ℚ
  tokens : ℚ
  lastRefill : ℚ
  deriving DecidableEq, Repr

/-- Modelled from the spec: the bucket starts full with capacity
`ceil(rate)`. -/
def tokenBucketInit (rate now : ℚ) : TokenBucket :=
  ⟨(⌈rate⌉ : ℚ), (⌈rate⌉ : ℚ), now⟩

/-- Modelled from the spec: on each incoming packet the bucket is
refilled at `rate` tokens per second since the last refill (capped at
capacity); an empty bucket (fewer than one token) drops the packet with
a warning, otherwise one token is consumed and the frame is yielded. -/
def tokenBucketStep (rate : ℚ) (b : TokenBucket) (now : ℚ) :
    TokenBucket × Bool :=
  let refilled := min b.capacity (b.tokens + (now - b.lastRefill) * rate)
  if refilled < 1 then ({ b with tokens := refilled, lastRefill := now }, false)
  else ({ b with tokens := refilled - 1, lastRefill := now }, true)

/-- Claim C6 (spec-modelled): with a strictly positive rate the bucket
capacity `ceil(rate)` is at least one token; for every incoming packet,
if the refilled bucket is empty (below one token) the packet is dropped
and no frame is yielded, otherwise exactly one token is consumed and the
frame is yielded; and the token count always stays within
`[0, capacity]` under a monotonic clock. -/
theorem c6_token_bucket_rate_limit (rate : ℚ) (b : TokenBucket) (now : ℚ)
    (hrate : 0 < rate) (hcap : b.capacity = (⌈rate⌉ : ℚ))
    (hclock : b.lastRefill ≤ now) (htok0 : 0 ≤ b.tokens)
    (htokc : b.tokens ≤ b.capacity) :
    1 ≤ b.capacity ∧
    (min b.capacity (b.tokens + (now - b.lastRefill) * rate) < 1 →
      tokenBucketStep rate b now =
        ({ b with
            tokens := min b.capacity (b.tokens + (now - b.lastRefill) * rate)
            lastRefill := now }, false)) ∧
    (1 ≤ min b.capacity (b.tokens + (now - b.lastRefill) * rate) →
      tokenBucketStep rate b now =
        ({ b with
            tokens := min b.capacity (b.tokens + (now - b.lastRefill) * rate) - 1
            lastRefill := now }, true)) ∧
    0 ≤ (tokenBucketStep rate b now).1.tokens ∧
    (tokenBucketStep rate b now).1.tokens ≤ b.capacity := by
  have hcap1 : 1 ≤ b.capacity := by
    rw [hcap]
    exact_mod_cast Int.ceil_pos.mpr hrate
  have hrefill0 : 0 ≤ min b.capacity (b.tokens + (now - b.lastRefill) * rate) :=
    le_min (le_trans zero_le_one hcap1)
      (add_nonneg htok0 (mul_nonneg (sub_nonneg.mpr hclock) hrate.le))
  refine ⟨hcap1, ?_, ?_, ?_, ?_⟩
  · intro hlt
    unfold tokenBucketStep
    rw [if_pos hlt]
  · intro hge
    unfold tokenBucketStep
    rw [if_neg (not_lt.mpr hge)]
  · unfold tokenBucketStep
    dsimp only
    split
    · exact hrefill0
    · next hge =>
      have : (1 : ℚ) ≤ min b.capacity (b.tokens + (now - b.lastRefill) * rate) :=
        not_lt.mp hge
      simp only
      linarith
  · unfold tokenBucketStep
    dsimp only
    split
    · exact min_le_left _ _
    · simp only
      have := min_le_left b.capacity (b.tokens + (now - b.lastRefill) * rate)
      linarith

/-- Witness for `c6_token_bucket_rate_limit` at the repo test's scenario:
`rate = 1`, a freshly initialised (full) bucket at monotonic time 0. -/
theorem c6_token_bucket_rate_limit_witness :
    (0 : ℚ) < 1 ∧ (tokenBucketInit 1 0).capacity = ((⌈(1 : ℚ)⌉ : ℤ) : ℚ) ∧
    (1 ≤ (tokenBucketInit 1 0).capacity ∧
      (min (tokenBucketInit 1 0).capacity
          ((tokenBucketInit 1 0).tokens +
            (0 - (tokenBucketInit 1 0).lastRefill) * 1) < 1 →
        tokenBucketStep 1 (tokenBucketInit 1 0) 0 =
          ({ tokenBucketInit 1 0 with
              tokens := min (tokenBucketInit 1 0).capacity
                ((tokenBucketInit 1 0).tokens +
                  (0 - (tokenBucketInit 1 0).lastRefill) * 1)
              lastRefill := 0 }, false)) ∧
      (1 ≤ min (tokenBucketInit 1 0).capacity
          ((tokenBucketInit 1 0).tokens +
            (0 - (tokenBucketInit 1 0).lastRefill) * 1) →
        tokenBucketStep 1 (tokenBucketInit 1 0) 0 =
          ({ tokenBucketInit 1 0 with
              tokens := min (tokenBucketInit 1 0).capacity
                ((tokenBucketInit 1 0).tokens +
                  (0 - (tokenBucketInit 1 0).lastRefill) * 1) - 1
              lastRefill := 0 }, true)) ∧
      0 ≤ (tokenBucketStep 1 (tokenBucketInit 1 0) 0).1.tokens ∧
      (tokenBucketStep 1 (tokenBucketInit 1 0) 0).1.tokens ≤
        (tokenBucketInit 1 0).capacity) :=
  ⟨by norm_num, by norm_num [tokenBucketInit],
    c6_token_bucket_rate_limit 1 (tokenBucketInit 1 0) 0 (by norm_num)
      (by norm_num [tokenBucketInit]) (by norm_num [tokenBucketInit])
      (by norm_num [tokenBucketInit]) (by norm_num [tokenBucketInit])⟩

end LFSAyats
